import Mathlib

/-!
Verification of the natural-language specification of `src/python/vendor/flask/helpers.py`
against a shallow embedding of that file's code.

The embedding models:
* the environment-flag readers `get_debug_flag` and `get_load_dotenv` (lines 27-47);
* the flash-message queue `flash` / `get_flashed_messages` (lines 299-372), with the
  session value under the reserved key `"_flashes"`, the per-request cache
  `request_ctx.flashes`, and the `message_flashed` signal modelled as explicit state;
* the context-preserving stream wrapper `stream_with_context` (lines 50-124), with the
  wrapping generator's suspension points modelled as a small state machine and the
  consumer-visible yields, `gen.close()` calls and context release modelled as events;
* the root-path discovery `get_root_path` (lines 557-611), with the import machinery
  (`sys.modules`, `importlib.util.find_spec`, `__import__`) modelled as an explicit
  environment.

Machine strings are Lean `String`s; Python `str.lower` is modelled by `pyLower`
(ASCII case folding, which is exact on the compared literals `"0"`, `"false"`, `"no"`).
-/

/-! ## Environment flags (helpers.py lines 27-47)

`os.environ.get(name)` returns `None` or a string; we model the read value as
`Option String`.  Python truthiness of the value (`val and ...` / `if not val`)
is: `none` and the empty string are falsy, every other string is truthy. -/

/-- Model of Python `str.lower` by character-wise ASCII case folding, which agrees
with Python on the ASCII literals these helpers compare against. -/
def pyLower (s : String) : String := String.mk (s.data.map Char.toLower)

/-- Model of `get_debug_flag` (lines 27-32):
`bool(val and val.lower() not in {"0", "false", "no"})`. -/
def get_debug_flag (val : Option String) : Bool :=
  match val with
  | none => false
  | some v => if v = "" then false else !(["0", "false", "no"].contains (pyLower v))

/-- Model of `get_load_dotenv` (lines 35-47):
`if not val: return default` then `return val.lower() in ("0", "false", "no")`. -/
def get_load_dotenv (dflt : Bool) (val : Option String) : Bool :=
  match val with
  | none => dflt
  | some v => if v = "" then dflt else ["0", "false", "no"].contains (pyLower v)

/-! ## Flash-message queue (helpers.py lines 299-372)

The relevant mutable state is: the session value stored under the reserved key
`"_flashes"` (`none` models the key being absent), the per-request cache
`request_ctx.flashes` (`None` at the start of every request), and the stream of
`message_flashed` signal emissions.  A flash entry is a `(category, message)` pair. -/

/-- One emission of the `message_flashed` signal (lines 325-330): it carries the
app reference (the sender), the message and the category. -/
structure FlashEvent where
  sender : String
  message : String
  category : String
deriving DecidableEq

/-- The state the flash helpers read and write. -/
structure FlashState where
  /-- `session["_flashes"]`; `none` models the key being absent from the session. -/
  session_flashes : Option (List (String × String))
  /-- `request_ctx.flashes`, the per-request cache; `none` models Python `None`. -/
  ctx_flashes : Option (List (String × String))
  /-- The `message_flashed` signal emissions so far, oldest first. -/
  signals : List FlashEvent
deriving DecidableEq

/-- A fresh session with no request served yet. -/
def initFlash : FlashState :=
  { session_flashes := none, ctx_flashes := none, signals := [] }

/-- Model of `flash(message, category)` (lines 299-330):
`flashes = session.get("_flashes", [])`, `flashes.append((category, message))`,
`session["_flashes"] = flashes`, then `message_flashed.send(app, message=..., category=...)`.
The read-modify-write is a pure state transformation here; `app` is the sender. -/
def flash (app message category : String) (st : FlashState) : FlashState :=
  let flashes := st.session_flashes.getD []
  let flashes := flashes ++ [(category, message)]
  { st with
      session_flashes := some flashes,
      signals := st.signals ++ [{ sender := app, message := message, category := category }] }

/-- Return value of `get_flashed_messages`: a list of message strings when
`with_categories` is false, a list of `(category, message)` pairs otherwise. -/
inductive FlashResult where
  | messages (msgs : List String)
  | withCats (entries : List (String × String))
deriving DecidableEq

/-- The tail of `get_flashed_messages` (lines 368-372), applied after the drain/cache
step: `if category_filter: flashes = list(filter(lambda f: f[0] in category_filter, flashes))`
then `return [x[1] for x in flashes]` unless `with_categories`. -/
def applyFlashView (with_categories : Bool) (category_filter : List String)
    (flashes : List (String × String)) : FlashResult :=
  let flashes :=
    if category_filter.isEmpty then flashes
    else flashes.filter fun f => category_filter.contains f.1
  if with_categories then FlashResult.withCats flashes
  else FlashResult.messages (flashes.map Prod.snd)

/-- Model of `get_flashed_messages(with_categories, category_filter)` (lines 333-372):
`flashes = request_ctx.flashes`; if that is `None`, drain the session
(`session.pop("_flashes") if "_flashes" in session else []`) and store the full
drained list in `request_ctx.flashes`; filtering and the categories view are applied
only to the returned value (`applyFlashView`), never to the cache. -/
def get_flashed_messages (with_categories : Bool) (category_filter : List String)
    (st : FlashState) : FlashResult × FlashState :=
  match st.ctx_flashes with
  | some fs => (applyFlashView with_categories category_filter fs, st)
  | none =>
    match st.session_flashes with
    | some fs =>
        (applyFlashView with_categories category_filter fs,
         { st with session_flashes := none, ctx_flashes := some fs })
    | none =>
        (applyFlashView with_categories category_filter [],
         { st with ctx_flashes := some [] })

/-- A request boundary: the next request starts with a fresh `request_ctx`, so the
per-request cache is `None` again; the session persists. -/
def new_request (st : FlashState) : FlashState :=
  { st with ctx_flashes := none }

/-- Append a batch of `(category, message)` entries via `flash`, in order.
`flash` only touches the session and the signal stream, so request boundaries
between the appends are irrelevant. -/
def flashAll (app : String) (es : List (String × String)) (st : FlashState) : FlashState :=
  es.foldl (fun s e => flash app e.2 e.1 s) st

lemma flashAll_session (app : String) (es : List (String × String)) (st : FlashState)
    (acc : List (String × String)) (h : st.session_flashes = some acc) :
    (flashAll app es st).session_flashes = some (acc ++ es) := by
  induction es generalizing st acc with
  | nil => simpa [flashAll] using h
  | cons e rest ih =>
    have hstep : (flash app e.2 e.1 st).session_flashes = some (acc ++ [e]) := by
      simp [flash, h]
    have hrec := ih (flash app e.2 e.1 st) (acc ++ [e]) hstep
    simpa [flashAll, List.foldl_cons, List.append_assoc] using hrec

lemma get_flashed_drain (st : FlashState) (fs : List (String × String))
    (h1 : st.ctx_flashes = none) (h2 : st.session_flashes = some fs) :
    get_flashed_messages true [] st =
      (FlashResult.withCats fs,
       { st with session_flashes := none, ctx_flashes := some fs }) := by
  unfold get_flashed_messages
  rw [h1, h2]
  simp [applyFlashView]

lemma get_flashed_cached (st : FlashState) (fs : List (String × String))
    (h : st.ctx_flashes = some fs) :
    get_flashed_messages true [] st = (FlashResult.withCats fs, st) := by
  unfold get_flashed_messages
  rw [h]
  simp [applyFlashView]

/-- Claim C1: after appending N entries via `flash` in earlier requests, the first
`get_flashed_messages` call of a request returns all N entries in append order and
removes them from the session; a second call in the same request returns the identical
cached result; and a call in a following request returns the empty list, so a drained
batch never reappears. -/
theorem flash_batch_delivered_once (app : String) (es : List (String × String)) :
    (get_flashed_messages true [] (new_request (flashAll app es initFlash))).1
      = FlashResult.withCats es ∧
    ((get_flashed_messages true [] (new_request (flashAll app es initFlash))).2).session_flashes
      = none ∧
    (get_flashed_messages true []
        ((get_flashed_messages true [] (new_request (flashAll app es initFlash))).2)).1
      = (get_flashed_messages true [] (new_request (flashAll app es initFlash))).1 ∧
    (get_flashed_messages true [] (new_request
        ((get_flashed_messages true []
          ((get_flashed_messages true [] (new_request (flashAll app es initFlash))).2)).2))).1
      = FlashResult.withCats [] := by
  cases es with
  | nil => exact ⟨rfl, rfl, rfl, rfl⟩
  | cons e rest =>
    have h0 : (flash app e.2 e.1 initFlash).session_flashes = some [e] := by
      simp [flash, initFlash]
    have hsess : (flashAll app (e :: rest) initFlash).session_flashes = some (e :: rest) := by
      have hrec := flashAll_session app rest (flash app e.2 e.1 initFlash) [e] h0
      simpa [flashAll, List.foldl_cons] using hrec
    have hd := get_flashed_drain (new_request (flashAll app (e :: rest) initFlash)) (e :: rest)
      rfl hsess
    refine ⟨?_, ?_, ?_, ?_⟩
    · rw [hd]
    · rw [hd]
    · rw [hd]
      rfl
    · rw [hd]
      rfl

/-- Claim C5: with a non-empty `category_filter`, reading returns exactly the stored
entries whose category is in the filter, in their original relative order (the filtered
list is a sublist of the stored sequence). -/
theorem get_flashed_category_filtering (st : FlashState) (fs : List (String × String))
    (cf : List String) (h1 : st.ctx_flashes = none) (h2 : st.session_flashes = some fs)
    (h3 : cf ≠ []) :
    (get_flashed_messages true cf st).1
      = FlashResult.withCats (fs.filter fun f => cf.contains f.1) ∧
    List.Sublist (fs.filter fun f => cf.contains f.1) fs := by
  have hne : cf.isEmpty = false := by
    cases cf with
    | nil => exact absurd rfl h3
    | cons a l => rfl
  constructor
  · unfold get_flashed_messages
    rw [h1, h2]
    simp [applyFlashView, hne]
  · exact List.filter_sublist fs

/-- Witness for C5 at the spec's own example: categories a, b, a filtered by a. -/
theorem get_flashed_category_filtering_witness :
    (get_flashed_messages true ["a"]
        { session_flashes := some [("a", "m1"), ("b", "m2"), ("a", "m3")],
          ctx_flashes := none, signals := [] }).1
      = FlashResult.withCats [("a", "m1"), ("a", "m3")] := by
  have h := get_flashed_category_filtering
    { session_flashes := some [("a", "m1"), ("b", "m2"), ("a", "m3")],
      ctx_flashes := none, signals := [] }
    [("a", "m1"), ("b", "m2"), ("a", "m3")] ["a"] rfl rfl (by decide)
  rw [h.1]
  decide

/-- Claim C8: `flash` stores by read-modify-write: the new session value is the old
stored sequence (defaulting to empty) with `(category, message)` appended, re-assigned
whole under the reserved key; a `message_flashed` signal carrying the app, the message
and the category is emitted; the per-request cache is untouched. -/
theorem flash_read_modify_write (app message category : String) (st : FlashState) :
    (flash app message category st).session_flashes
      = some (st.session_flashes.getD [] ++ [(category, message)]) ∧
    (flash app message category st).signals
      = st.signals ++ [{ sender := app, message := message, category := category }] ∧
    (flash app message category st).ctx_flashes = st.ctx_flashes :=
  ⟨rfl, rfl, rfl⟩

/-- Claim C10: the per-request cache always receives the full drained sequence,
whatever the arguments of the draining call were; a later call in the same request
with `with_categories = true` and no filter still sees every drained entry. -/
theorem get_flashed_cache_holds_full (st : FlashState) (fs : List (String × String))
    (w0 : Bool) (cf0 : List String)
    (h1 : st.ctx_flashes = none) (h2 : st.session_flashes = some fs) :
    ((get_flashed_messages w0 cf0 st).2).ctx_flashes = some fs ∧
    (get_flashed_messages true [] ((get_flashed_messages w0 cf0 st).2)).1
      = FlashResult.withCats fs := by
  have hfst : (get_flashed_messages w0 cf0 st).2
      = { st with session_flashes := none, ctx_flashes := some fs } := by
    unfold get_flashed_messages
    rw [h1, h2]
  refine ⟨by rw [hfst], ?_⟩
  rw [hfst]
  rfl

/-- Witness for C10: draining with `with_categories = false` and filter b still
caches both entries; the later unfiltered call sees both. -/
theorem get_flashed_cache_holds_full_witness :
    ((get_flashed_messages false ["b"]
        { session_flashes := some [("a", "m1"), ("b", "m2")],
          ctx_flashes := none, signals := [] }).2).ctx_flashes
      = some [("a", "m1"), ("b", "m2")] ∧
    (get_flashed_messages true []
        ((get_flashed_messages false ["b"]
          { session_flashes := some [("a", "m1"), ("b", "m2")],
            ctx_flashes := none, signals := [] }).2)).1
      = FlashResult.withCats [("a", "m1"), ("b", "m2")] := by
  have h := get_flashed_cache_holds_full
    { session_flashes := some [("a", "m1"), ("b", "m2")],
      ctx_flashes := none, signals := [] }
    [("a", "m1"), ("b", "m2")] false ["b"] rfl rfl
  exact ⟨h.1, h.2⟩

/-- Claim C9: `get_debug_flag` returns false when the variable is unset or empty and
otherwise true exactly when the lowercased value is not one of 0, false, no;
`get_load_dotenv` returns its default when unset or empty and otherwise true exactly
when the lowercased value is one of 0, false, no. -/
theorem env_flag_parsing :
    get_debug_flag none = false ∧
    get_debug_flag (some "") = false ∧
    (∀ v : String, v ≠ "" →
      get_debug_flag (some v) = !(["0", "false", "no"].contains (pyLower v))) ∧
    (∀ d : Bool, get_load_dotenv d none = d) ∧
    (∀ d : Bool, get_load_dotenv d (some "") = d) ∧
    (∀ (d : Bool) (v : String), v ≠ "" →
      get_load_dotenv d (some v) = ["0", "false", "no"].contains (pyLower v)) := by
  refine ⟨rfl, rfl, ?_, fun d => rfl, fun d => by simp [get_load_dotenv], ?_⟩
  · intro v hv
    simp [get_debug_flag, hv]
  · intro d v hv
    simp [get_load_dotenv, hv]

/-- Witness for C9: a set, non-empty value TRUE enables debug; a set value No
requests skipping dotenv loading. -/
theorem env_flag_parsing_witness :
    get_debug_flag (some "TRUE") = true ∧ get_load_dotenv true (some "No") = true := by
  constructor
  · have h := env_flag_parsing.2.2.1 "TRUE" (by decide)
    rw [h]
    decide
  · have h := env_flag_parsing.2.2.2.2.2 true "No" (by decide)
    rw [h]
    decide

/-! ## Context-preserving stream wrapper (helpers.py lines 50-124)

`stream_with_context` captures the ambient request context (`_cv_request.get(None)`,
modelled as `Option Unit`), builds a wrapping generator whose first yield is a `None`
sentinel emitted inside `with ctx`, eagerly advances it once (line 123) so the
sentinel is consumed before the wrapper returns, and delegates the real items with
`yield from gen` inside a `try`/`finally` that calls `gen.close()` when present.

The wrapping generator is modelled as a state machine over its suspension points,
and a run is driven by a consumer that performs a given number of `next()` calls
(`take = some n`) or iterates to natural exhaustion (`take = none`), then closes
the wrapped generator.  `yield from` is modelled as transparent item delegation for
`next()`, plus the PEP 380 `GeneratorExit` handling on close: when the wrapping
generator is closed while suspended inside `yield from gen`, the interpreter first
calls `gen.close()` if present, re-raises `GeneratorExit`, and then the `finally`
at lines 114-116 calls `gen.close()` a second time.  The underlying sequence is a
finite list of chunks together with two flags: whether it exposes a `close` hook
(`hasattr(gen, "close")`, true for generators and for close-bearing WSGI iterators
alike) and whether it raises an error when iteration reaches its end (instead of
finishing normally). -/

/-- The underlying chunk sequence passed to `stream_with_context`. -/
structure ChunkSeq (α : Type) where
  /-- The chunks the underlying iterator yields, in order. -/
  items : List α
  /-- The underlying iterator raises an error at its end instead of stopping normally. -/
  raisesAtEnd : Bool
  /-- The underlying iterator exposes a `close` cleanup hook (`hasattr(gen, "close")`). -/
  hasClose : Bool
deriving DecidableEq

/-- Observable events of one run of the wrapping generator. -/
inductive Ev (α : Type) where
  /-- The `with ctx` block is entered (context re-acquired, line 103). -/
  | ctxEnter
  /-- A value is yielded to whoever called `next()`; the sentinel is `yielded none`. -/
  | yielded (x : Option α)
  /-- `gen.close()` is invoked (line 116). -/
  | closedGen
  /-- The `with ctx` block is exited (context released). -/
  | ctxExit
  /-- `StopIteration`: the wrapped generator finished normally. -/
  | stopIter
  /-- The underlying sequence's error propagates to the consumer. -/
  | raisedErr
deriving DecidableEq

/-- Suspension points of the wrapping generator `generator()` (lines 96-116).
Each constructor carries the not-yet-delivered tail of the underlying items. -/
inductive WrapState (α : Type) where
  /-- `generator()` has been called but not yet resumed. -/
  | created (rest : List α)
  /-- Suspended at the sentinel `yield None` (line 106): inside `with ctx`,
  but the `try`/`finally` block (lines 112-116) has not been entered. -/
  | atSentinel (rest : List α)
  /-- Suspended at a yield inside `yield from gen` (line 113). -/
  | inBody (rest : List α)
  /-- The generator frame has exited. -/
  | finished
deriving DecidableEq

/-- Resuming execution inside the `try`: `yield from gen` yields the next item, or,
at exhaustion, runs the `finally` (close `gen` if it has `close`), leaves `with ctx`,
and ends with `StopIteration` or the underlying error. -/
def stepBody (g : ChunkSeq α) : List α → List (Ev α) × WrapState α
  | x :: rest => ([Ev.yielded (some x)], WrapState.inBody rest)
  | [] =>
      ((if g.hasClose then [Ev.closedGen] else []) ++
        (Ev.ctxExit :: [if g.raisesAtEnd then Ev.raisedErr else Ev.stopIter]),
       WrapState.finished)

/-- One `next()` on the wrapping generator. The first resume runs the context check,
enters `with ctx` and yields the sentinel; later resumes run `stepBody`. -/
def resumeNext (g : ChunkSeq α) : WrapState α → List (Ev α) × WrapState α
  | WrapState.created rest => ([Ev.ctxEnter, Ev.yielded none], WrapState.atSentinel rest)
  | WrapState.atSentinel rest => stepBody g rest
  | WrapState.inBody rest => stepBody g rest
  | WrapState.finished => ([], WrapState.finished)

/-- Closing the wrapping generator (early abandonment): `GeneratorExit` is raised at
the suspension point. At the sentinel yield the `try`/`finally` has not been entered,
so `gen.close()` is NOT called and only `with ctx` releases the context. Inside
`yield from`, CPython's PEP 380 `GeneratorExit` handling first closes the
sub-iterator (`gen.close()` if present) and re-raises, and then the `finally` of
lines 114-116 calls `gen.close()` a second time, before the context is released:
two invocations of the hook on this path. -/
def closeWrapped (g : ChunkSeq α) : WrapState α → List (Ev α)
  | WrapState.created _ => []
  | WrapState.atSentinel _ => [Ev.ctxExit]
  | WrapState.inBody _ =>
      (if g.hasClose then [Ev.closedGen, Ev.closedGen] else []) ++ [Ev.ctxExit]
  | WrapState.finished => []

/-- Whether the generator frame has exited (the consumer stops calling `next()`). -/
def isFin : WrapState α → Bool
  | WrapState.finished => true
  | _ => false

/-- The consumer performs up to `n` calls to `next()`, stopping early if the
generator finishes (normally or with an error). -/
def serve (g : ChunkSeq α) : WrapState α → Nat → List (Ev α) × WrapState α
  | s, 0 => ([], s)
  | s, n + 1 =>
    let p := resumeNext g s
    if isFin p.2 then p
    else ((p.1 ++ (serve g p.2 n).1), (serve g p.2 n).2)

/-- Summary of one full run of the wrapped sequence. -/
structure StreamRun (α : Type) where
  /-- The values the consumer received from its own `next()` calls, in order. -/
  observed : List (Option α)
  /-- How many times `gen.close()` was invoked over the whole run. -/
  closes : Nat
  /-- Whether the re-acquired request context was released by the end of the run. -/
  ctxReleased : Bool
  /-- Whether the underlying sequence's error propagated to the consumer. -/
  raised : Bool
deriving DecidableEq

/-- The consumer-visible yields in an event list. -/
def yieldsOf : List (Ev α) → List (Option α) :=
  List.filterMap fun e =>
    match e with
    | Ev.yielded x => some x
    | _ => none

/-- Number of `gen.close()` invocations in an event list. -/
def closesCount (evs : List (Ev α)) : Nat :=
  (evs.filter fun e =>
    match e with
    | Ev.closedGen => true
    | _ => false).length

/-- Whether the context was released in an event list. -/
def hasCtxExit (evs : List (Ev α)) : Bool :=
  evs.any fun e =>
    match e with
    | Ev.ctxExit => true
    | _ => false

/-- Whether an error propagated to the consumer in an event list. -/
def hasRaised (evs : List (Ev α)) : Bool :=
  evs.any fun e =>
    match e with
    | Ev.raisedErr => true
    | _ => false

/-- The `RuntimeError` message raised when no request context is active (lines 99-102). -/
def rtMsg : String :=
  "'stream_with_context' can only be used when a request context is active, such as in a view function."

/-- Model of `stream_with_context` applied to an iterable (lines 96-124), run to
completion by a consumer: the generator is created, eagerly advanced once
(`next(wrapped_g)`, line 123, which performs the context check and discards the
sentinel), then driven by the consumer for `take` steps (all items if `take = none`),
and finally closed.  With no ambient request context the eager advance raises
`RuntimeError` inside the `stream_with_context` call itself. -/
def streamWithContextRun (ctx : Option Unit) (g : ChunkSeq α) (take : Option Nat) :
    Except String (StreamRun α) :=
  match ctx with
  | none => Except.error rtMsg
  | some _ =>
    let p0 := resumeNext g (WrapState.created g.items)
    let p1 := serve g p0.2 (take.getD (g.items.length + 1))
    let evs := p0.1 ++ p1.1 ++ closeWrapped g p1.2
    Except.ok
      { observed := yieldsOf p1.1
        closes := closesCount evs
        ctxReleased := hasCtxExit evs
        raised := hasRaised evs }

/-- Observed items of a run (empty if the wrapper failed to start). -/
def obsOf (e : Except String (StreamRun α)) : List (Option α) :=
  match e with
  | Except.ok r => r.observed
  | Except.error _ => []

/-- Number of `gen.close()` calls of a run. -/
def clsOf (e : Except String (StreamRun α)) : Nat :=
  match e with
  | Except.ok r => r.closes
  | Except.error _ => 0

/-- Whether the re-acquired context was released over a run. -/
def relOf (e : Except String (StreamRun α)) : Bool :=
  match e with
  | Except.ok r => r.ctxReleased
  | Except.error _ => false

/-- Model of the iterable branch of `stream_with_context` (lines 86-87 succeed). -/
def stream_with_context_iter (g : ChunkSeq α) :
    Option Unit → Option Nat → Except String (StreamRun α) :=
  fun ctx take => streamWithContextRun ctx g take

/-- Model of the callable branch (lines 88-94): `iter()` raised `TypeError`, so a
`decorator` with the argument signature of the original callable is returned;
invoking it calls the original to obtain a sequence and wraps that sequence
(`return stream_with_context(gen)`). -/
def stream_with_context_call {β : Type} (f : β → ChunkSeq α) :
    β → Option Unit → Option Nat → Except String (StreamRun α) :=
  fun b => stream_with_context_iter (f b)

lemma yieldsOf_append (a b : List (Ev α)) : yieldsOf (a ++ b) = yieldsOf a ++ yieldsOf b := by
  simp [yieldsOf]

lemma yieldsOf_map_yield (l : List α) :
    yieldsOf (l.map fun x => Ev.yielded (some x)) = l.map some := by
  induction l with
  | nil => rfl
  | cons x xs ih => simpa [yieldsOf, List.filterMap_cons] using ih

lemma closesCount_append (a b : List (Ev α)) :
    closesCount (a ++ b) = closesCount a + closesCount b := by
  simp [closesCount, List.filter_append]

lemma closesCount_map_yield (l : List α) :
    closesCount (l.map fun x => Ev.yielded (some x)) = 0 := by
  induction l with
  | nil => rfl
  | cons x xs ih => simp [closesCount, List.filter_cons, ih]

lemma hasCtxExit_append (a b : List (Ev α)) :
    hasCtxExit (a ++ b) = (hasCtxExit a || hasCtxExit b) := by
  simp [hasCtxExit]

lemma hasCtxExit_map_yield (l : List α) :
    hasCtxExit (l.map fun x => Ev.yielded (some x)) = false := by
  induction l with
  | nil => rfl
  | cons x xs ih => simp [hasCtxExit, ih]

lemma hasRaised_append (a b : List (Ev α)) :
    hasRaised (a ++ b) = (hasRaised a || hasRaised b) := by
  simp [hasRaised]

lemma hasRaised_map_yield (l : List α) :
    hasRaised (l.map fun x => Ev.yielded (some x)) = false := by
  induction l with
  | nil => rfl
  | cons x xs ih => simp [hasRaised, ih]

lemma serve_inBody (g : ChunkSeq α) (rest : List α) (n : Nat) :
    serve g (WrapState.inBody rest) n =
      if n ≤ rest.length then
        ((rest.take n).map (fun x => Ev.yielded (some x)), WrapState.inBody (rest.drop n))
      else
        ((rest.map fun x => Ev.yielded (some x)) ++
           ((if g.hasClose then [Ev.closedGen] else []) ++
             (Ev.ctxExit :: [if g.raisesAtEnd then Ev.raisedErr else Ev.stopIter])),
         WrapState.finished) := by
  induction n generalizing rest with
  | zero => simp [serve]
  | succ n ih =>
    cases rest with
    | nil =>
      simp [serve, resumeNext, stepBody, isFin]
    | cons x rs =>
      have hstep : resumeNext g (WrapState.inBody (x :: rs)) =
          ([Ev.yielded (some x)], WrapState.inBody rs) := rfl
      by_cases h : n ≤ rs.length
      · rw [if_pos (by simpa using Nat.succ_le_succ h)]
        simp only [serve, hstep, isFin]
        rw [ih rs, if_pos h]
        simp [List.take_succ_cons, List.drop_succ_cons]
      · rw [if_neg (by simpa using fun hc => h (Nat.le_of_succ_le_succ hc))]
        simp only [serve, hstep, isFin]
        rw [ih rs, if_neg h]
        simp

lemma serve_sentinel_succ (g : ChunkSeq α) (rest : List α) (n : Nat) :
    serve g (WrapState.atSentinel rest) (n + 1) = serve g (WrapState.inBody rest) (n + 1) := by
  simp only [serve, resumeNext]

lemma run_take_none (g : ChunkSeq α) :
    streamWithContextRun (some ()) g none =
      Except.ok
        { observed := g.items.map some
          closes := if g.hasClose then 1 else 0
          ctxReleased := true
          raised := g.raisesAtEnd } := by
  simp only [streamWithContextRun, Option.getD, resumeNext]
  rw [serve_sentinel_succ, serve_inBody, if_neg (by omega)]
  simp only [closeWrapped, List.append_nil, Except.ok.injEq, StreamRun.mk.injEq]
  refine ⟨?_, ?_, ?_, ?_⟩
  · rw [yieldsOf_append, yieldsOf_map_yield]
    cases hc : g.hasClose <;> cases hr : g.raisesAtEnd <;> simp [yieldsOf]
  · rw [closesCount_append, closesCount_append, closesCount_map_yield]
    cases hc : g.hasClose <;> cases hr : g.raisesAtEnd <;> simp [closesCount]
  · rw [hasCtxExit_append, hasCtxExit_append, hasCtxExit_map_yield]
    cases hc : g.hasClose <;> cases hr : g.raisesAtEnd <;> simp [hasCtxExit]
  · rw [hasRaised_append, hasRaised_append, hasRaised_map_yield]
    cases hc : g.hasClose <;> cases hr : g.raisesAtEnd <;> simp [hasRaised]

lemma run_take_zero (g : ChunkSeq α) :
    streamWithContextRun (some ()) g (some 0) =
      Except.ok { observed := [], closes := 0, ctxReleased := true, raised := false } := by
  simp only [streamWithContextRun, Option.getD, resumeNext, serve]
  simp [closeWrapped, yieldsOf, closesCount, hasCtxExit, hasRaised]

lemma run_take_pos (g : ChunkSeq α) (n : Nat) (h1 : 1 ≤ n) (h2 : n ≤ g.items.length) :
    streamWithContextRun (some ()) g (some n) =
      Except.ok
        { observed := (g.items.take n).map some
          closes := if g.hasClose then 2 else 0
          ctxReleased := true
          raised := false } := by
  obtain ⟨m, rfl⟩ : ∃ m, n = m + 1 := ⟨n - 1, by omega⟩
  simp only [streamWithContextRun, Option.getD, resumeNext]
  rw [serve_sentinel_succ, serve_inBody, if_pos h2]
  simp only [closeWrapped, Except.ok.injEq, StreamRun.mk.injEq]
  refine ⟨?_, ?_, ?_, ?_⟩
  · exact yieldsOf_map_yield _
  · rw [closesCount_append, closesCount_append, closesCount_map_yield]
    cases hc : g.hasClose <;> simp [closesCount]
  · rw [hasCtxExit_append, hasCtxExit_append, hasCtxExit_map_yield]
    cases hc : g.hasClose <;> simp [hasCtxExit]
  · rw [hasRaised_append, hasRaised_append, hasRaised_map_yield]
    cases hc : g.hasClose <;> simp [hasRaised]

lemma run_take_big (g : ChunkSeq α) (n : Nat) (h : g.items.length < n) :
    streamWithContextRun (some ()) g (some n) =
      Except.ok
        { observed := g.items.map some
          closes := if g.hasClose then 1 else 0
          ctxReleased := true
          raised := g.raisesAtEnd } := by
  obtain ⟨m, rfl⟩ : ∃ m, n = m + 1 := ⟨n - 1, by omega⟩
  simp only [streamWithContextRun, Option.getD, resumeNext]
  rw [serve_sentinel_succ, serve_inBody, if_neg (by omega)]
  simp only [closeWrapped, List.append_nil, Except.ok.injEq, StreamRun.mk.injEq]
  refine ⟨?_, ?_, ?_, ?_⟩
  · rw [yieldsOf_append, yieldsOf_map_yield]
    cases hc : g.hasClose <;> cases hr : g.raisesAtEnd <;> simp [yieldsOf]
  · rw [closesCount_append, closesCount_append, closesCount_map_yield]
    cases hc : g.hasClose <;> cases hr : g.raisesAtEnd <;> simp [closesCount]
  · rw [hasCtxExit_append, hasCtxExit_append, hasCtxExit_map_yield]
    cases hc : g.hasClose <;> cases hr : g.raisesAtEnd <;> simp [hasCtxExit]
  · rw [hasRaised_append, hasRaised_append, hasRaised_map_yield]
    cases hc : g.hasClose <;> cases hr : g.raisesAtEnd <;> simp [hasRaised]

/-- Claim C2: with a request context active, a full iteration of the wrapped sequence
yields exactly the underlying sequence's items, in order, and the internal sentinel
(the `yield None`, consumed by the wrapper's own eager `next`) is never observed by
the consumer. -/
theorem stream_yields_exact (g : ChunkSeq String) :
    obsOf (streamWithContextRun (some ()) g none) = g.items.map some ∧
    Option.none ∉ obsOf (streamWithContextRun (some ()) g none) := by
  rw [run_take_none]
  exact ⟨rfl, by simp [obsOf]⟩

/-- Claim C3: with no ambient request context at the moment the wrapped generator is
first resumed (which `stream_with_context` itself forces via its eager `next`), the
operation fails with the `RuntimeError` - the spec's `InvalidStateError` - whose
message states that it can only be used while a request context is active. -/
theorem stream_requires_active_context (g : ChunkSeq String) (take : Option Nat) :
    streamWithContextRun none g take = Except.error rtMsg ∧
    rtMsg = "'stream_with_context' can only be used when a request context is active, such as in a view function." :=
  ⟨rfl, rfl⟩

/-- Counterexample to claim C4 as stated: for an underlying sequence that exposes a
close hook, abandoning the wrapped iteration before requesting any item (the wrapped
generator is closed while still suspended at the sentinel yield, before the
`try`/`finally` of lines 112-116 is entered) invokes the cleanup hook zero times,
not exactly once. -/
theorem stream_cleanup_hook_cex :
    clsOf (streamWithContextRun (some ())
        ({ items := ["chunk"], raisesAtEnd := false, hasClose := true } : ChunkSeq String)
        (some 0)) = 0 ∧
    ¬ clsOf (streamWithContextRun (some ())
        ({ items := ["chunk"], raisesAtEnd := false, hasClose := true } : ChunkSeq String)
        (some 0)) = 1 := by
  decide

/-- Claim C4, amended: for an underlying sequence exposing a close hook, normal
completion and an error during iteration invoke the cleanup hook exactly once (via
the `finally` of lines 114-116); early abandonment while suspended mid-iteration
(after at least one item has been requested, before natural exhaustion) invokes it
twice - once by the interpreter's `yield from` `GeneratorExit` forwarding and once
by the `finally` (idempotent for generators, two real calls for close-bearing
non-generator iterators); abandonment before any item is requested invokes it zero
times (the `try`/`finally` has not been entered); and the re-acquired request
context is released on every exit path. -/
theorem stream_cleanup_amended :
    (∀ g : ChunkSeq String, g.hasClose = true →
      clsOf (streamWithContextRun (some ()) g none) = 1) ∧
    (∀ (g : ChunkSeq String) (n : Nat), g.hasClose = true → g.items.length < n →
      clsOf (streamWithContextRun (some ()) g (some n)) = 1) ∧
    (∀ (g : ChunkSeq String) (n : Nat), g.hasClose = true → 1 ≤ n → n ≤ g.items.length →
      clsOf (streamWithContextRun (some ()) g (some n)) = 2) ∧
    (∀ g : ChunkSeq String, g.hasClose = true →
      clsOf (streamWithContextRun (some ()) g (some 0)) = 0) ∧
    (∀ (g : ChunkSeq String) (take : Option Nat),
      relOf (streamWithContextRun (some ()) g take) = true) := by
  refine ⟨?_, ?_, ?_, ?_, ?_⟩
  · intro g hc
    rw [run_take_none]; simp [clsOf, hc]
  · intro g n hc hbig
    rw [run_take_big g n hbig]; simp [clsOf, hc]
  · intro g n hc h1 hle
    rw [run_take_pos g n h1 hle]; simp [clsOf, hc]
  · intro g hc
    rw [run_take_zero]
    rfl
  · intro g take
    cases take with
    | none => rw [run_take_none]; rfl
    | some n =>
      rcases Nat.eq_zero_or_pos n with rfl | hp
      · rw [run_take_zero]
        rfl
      · rcases Nat.lt_or_ge g.items.length n with hbig | hle
        · rw [run_take_big g n hbig]
          rfl
        · rw [run_take_pos g n hp hle]
          rfl

/-- Witness for the amended C4 at concrete inputs on a two-item close-bearing
sequence: full iteration closes exactly once; limited to five requests (past
exhaustion) still once; abandoning after one item closes twice; abandoning before
any item closes zero times yet still releases the context. -/
theorem stream_cleanup_amended_witness :
    clsOf (streamWithContextRun (some ())
        ({ items := ["a", "b"], raisesAtEnd := false, hasClose := true } : ChunkSeq String)
        none) = 1 ∧
    clsOf (streamWithContextRun (some ())
        ({ items := ["a", "b"], raisesAtEnd := false, hasClose := true } : ChunkSeq String)
        (some 5)) = 1 ∧
    clsOf (streamWithContextRun (some ())
        ({ items := ["a", "b"], raisesAtEnd := false, hasClose := true } : ChunkSeq String)
        (some 1)) = 2 ∧
    clsOf (streamWithContextRun (some ())
        ({ items := ["a", "b"], raisesAtEnd := false, hasClose := true } : ChunkSeq String)
        (some 0)) = 0 ∧
    relOf (streamWithContextRun (some ())
        ({ items := ["a", "b"], raisesAtEnd := false, hasClose := true } : ChunkSeq String)
        (some 0)) = true :=
  ⟨stream_cleanup_amended.1 _ rfl,
   stream_cleanup_amended.2.1 _ 5 rfl (by decide),
   stream_cleanup_amended.2.2.1 _ 1 rfl (by decide) (by decide),
   stream_cleanup_amended.2.2.2.1 _ rfl,
   stream_cleanup_amended.2.2.2.2 _ (some 0)⟩

/-- Claim C6: on a non-iterable, callable input, `stream_with_context` returns a new
callable with the argument signature of the original; invoking it on any argument
calls the original on that argument to obtain a sequence and returns that sequence
wrapped exactly as the iterable branch wraps it. -/
theorem stream_callable_wrapping {β : Type} (f : β → ChunkSeq String) (b : β)
    (ctx : Option Unit) (take : Option Nat) :
    stream_with_context_call f b ctx take = stream_with_context_iter (f b) ctx take ∧
    stream_with_context_call f b ctx take = streamWithContextRun ctx (f b) take :=
  ⟨rfl, rfl⟩

/-! ## Root-path discovery (helpers.py lines 557-611)

`get_root_path(import_name)` consults `sys.modules`, `importlib.util.find_spec` and,
as a last resort, a forced `__import__`.  The import machinery is modelled as an
explicit environment: `modules name` is `sys.modules.get(name)`, where a cached
module is represented by its usable `__file__` (`some (some file)`), a cached module
whose `__file__` is absent or `None` by `some none`, and a missing cache entry by
`none`.  `os.path.dirname` is implemented concretely on POSIX-style strings;
`os.path.abspath` (which depends on the process working directory and OS
normalisation) is an abstract field of the environment. -/

/-- A loader as `get_root_path` sees it: it may or may not expose `get_filename`. -/
structure Loader where
  /-- `loader.get_filename(import_name)` when the loader has that attribute. -/
  get_filename : Option (String → String)

/-- Outcome of `importlib.util.find_spec(import_name)` as used at lines 573-581:
the call may raise (`ImportError` or the `ValueError` raised on a `None` spec),
or return a spec carrying an optional loader. -/
inductive FindSpecResult where
  /-- `find_spec` raised `ImportError`, or returned `None` (turned into `ValueError`). -/
  | failed
  /-- `find_spec` returned a spec with the given `loader` (possibly `None`). -/
  | found (loader : Option Loader)

/-- The loader that the `try`/`except` block at lines 573-581 leaves in `loader`. -/
def loaderOf : FindSpecResult → Option Loader
  | FindSpecResult.failed => none
  | FindSpecResult.found l => l

/-- The import machinery visible to `get_root_path`. -/
structure ImportEnv where
  /-- `sys.modules.get(name)`: a cached module's usable `__file__`, if any. -/
  modules : String → Option (Option String)
  /-- `importlib.util.find_spec(name)`. -/
  find_spec : String → FindSpecResult
  /-- After `__import__(name)`: `getattr(sys.modules[name], "__file__", None)`. -/
  import_file : String → Option String
  /-- `os.path.abspath`. -/
  abspath : String → String
  /-- `os.getcwd()`. -/
  cwd : String

/-- Model of `posixpath.dirname`: everything up to the final path separator, with
trailing separators stripped from the head unless the head is all separators. -/
def dirname (p : String) : String :=
  let cs := p.toList
  let head := (cs.reverse.dropWhile (fun c => c ≠ '/')).reverse
  if head.all (fun c => c = '/') then String.mk head
  else String.mk ((head.reverse.dropWhile (fun c => c = '/')).reverse)

/-- Model of `get_root_path` (lines 557-611):
1. a cached module with a usable `__file__` gives `dirname(abspath(mod.__file__))`;
2. otherwise the loader is looked up; if there is none, the current working
   directory is returned;
3. a loader with `get_filename` gives `dirname(abspath(loader.get_filename(name)))`;
4. otherwise the module is force-imported and its `__file__` used; if that is still
   missing, the `RuntimeError` of lines 601-608 is raised (message abbreviated,
   the source interpolates `import_name` into it). -/
def get_root_path (env : ImportEnv) (import_name : String) : Except String String :=
  match env.modules import_name with
  | some (some file) => Except.ok (dirname (env.abspath file))
  | _ =>
    match loaderOf (env.find_spec import_name) with
    | none => Except.ok env.cwd
    | some l =>
      match l.get_filename with
      | some gf => Except.ok (dirname (env.abspath (gf import_name)))
      | none =>
        match env.import_file import_name with
        | some filepath => Except.ok (dirname (env.abspath filepath))
        | none =>
            Except.error "No root path can be found for the provided module. This can happen because the module came from an import hook that does not provide file name information or because it is a namespace package."

/-- Claim C7: for an already-imported module with a usable file attribute,
`get_root_path` returns the containing directory of that file; for a name with no
cached module and no loader, it returns the current working directory. -/
theorem get_root_path_spec :
    (∀ (env : ImportEnv) (n f : String), env.modules n = some (some f) →
      get_root_path env n = Except.ok (dirname (env.abspath f))) ∧
    (∀ (env : ImportEnv) (n : String), env.modules n = none →
      loaderOf (env.find_spec n) = none →
      get_root_path env n = Except.ok env.cwd) := by
  constructor
  · intro env n f h
    unfold get_root_path
    rw [h]
  · intro env n h1 h2
    unfold get_root_path
    rw [h1, h2]

/-- Witness environment for C7: one cached module with a file, everything else
missing; `abspath` is the identity (its argument is already absolute). -/
def envA : ImportEnv :=
  { modules := fun n => if n = "pkg" then some (some "/site/pkg/base.py") else none
    find_spec := fun _ => FindSpecResult.failed
    import_file := fun _ => none
    abspath := fun s => s
    cwd := "/work" }

/-- Witness for C7: the cached module resolves to its file's directory; the unknown
name falls back to the current working directory. -/
theorem get_root_path_spec_witness :
    get_root_path envA "pkg" = Except.ok "/site/pkg" ∧
    get_root_path envA "ghost" = Except.ok "/work" := by
  constructor
  · have h := get_root_path_spec.1 envA "pkg" "/site/pkg/base.py" (by decide)
    rw [h]
    simp only [Except.ok.injEq]
    decide
  · exact get_root_path_spec.2 envA "ghost" (by decide) rfl
